import Mathlib

/-!
# Verification of the hayward_pool_heater protocol core (Clock frame)

Shallow embedding of `src/components/hwp/base_frame.h`, `FrameClock.h` and
`FrameClock.cpp`.  Machine bytes are `Nat` (each byte-valued field of a
packed struct is one `Nat`); `esphome::optional<T>` is `Option T`;
`std::string` is `String`.  Parts of the repository that the headers
reference but whose code is not present (`Schema.h`, `CS.h`,
`base_frame.cpp`, libc `mktime`) are modelled from the specification and
marked as such in their doc comments.
-/

namespace hwp

/-- Highlight-marker strings of the `CS` colour-string builder.
Modelled from the spec: `CS.h` is not in `src/`; §4.5 describes a
"highlight marker pair" wrapped around each differing character
(`CS::invert` opens, `CS::invert_rst` closes).  The concrete marker text
is opaque; we pick distinct non-empty tokens.  `set_changed_base_color`
is modelled as contributing no characters to the accumulated text. -/
def CS.invert : String := "«"

/-- Closing highlight marker of the `CS` builder (see `CS.invert`). -/
def CS.invert_rst : String := "»"

/-- The packed Clock payload `clock_time_t` of `FrameClock.h` (lines
52–63): ten single-byte fields in declaration order
`id, reserved1, reserved2, year, month, day, hour, minute, reserved3,
reserved4`.  Each field is a byte value. -/
structure clock_time where
  id : Nat
  reserved1 : Nat
  reserved2 : Nat
  year : Nat
  month : Nat
  day : Nat
  hour : Nat
  minute : Nat
  reserved3 : Nat
  reserved4 : Nat
deriving DecidableEq, Repr

/-- The packed byte image of `clock_time_t`: its fields in declaration
order, one byte each (`__attribute__((packed))`, so `sizeof` is the
number of fields). -/
def clock_time.encode (c : clock_time) : List Nat :=
  [c.id, c.reserved1, c.reserved2, c.year, c.month, c.day, c.hour,
   c.minute, c.reserved3, c.reserved4]

/-- `std::setw w` / `std::setfill '0'` rendering of a non-negative
integer: decimal digits left-padded with `'0'` to width `w` (never
truncated). -/
def pad0 (w n : Nat) : String :=
  let s := toString n
  if s.length < w then String.mk (List.replicate (w - s.length) '0') ++ s else s

/-- `clock_time::format` (FrameClock.h lines 75–83):
`YYYY/MM/DD - HH:MM` with widths 4/2/2/2/2 and fill `'0'`. -/
def clock_time.format (c : clock_time) : String :=
  pad0 4 c.year ++ "/" ++ pad0 2 c.month ++ "/" ++ pad0 2 c.day ++ " - " ++
  pad0 2 c.hour ++ ":" ++ pad0 2 c.minute

/-- The character-by-character walk of `clock_time::diff` (FrameClock.h
lines 96–103): over the common prefix of `ref` and `cur`, a position
where the two differ emits `inv ++ current-char ++ rst`, a matching
position emits the character alone.  The recursion stops at the shorter
list, matching the loop bound `n = min(ref.size, cur.size)`. -/
def csWalk (inv rst : String) : List Char → List Char → String
  | r :: rt, c :: ct =>
      (if r = c then String.singleton c else inv ++ String.singleton c ++ rst)
        ++ csWalk inv rst rt ct
  | _, _ => ""

/-- `clock_time::diff` (FrameClock.h lines 85–109): formats the
reference and the current value, chooses real highlight markers only
when the two formatted strings differ (`changed`), walks the common
prefix, then appends `cur.substr(n)` when `cur` is longer than the
common prefix, and finally the separator. -/
def clock_time.diff (c reference : clock_time) (separator : String) : String :=
  let ref := reference.format
  let cur := c.format
  let cs_inv := if ref = cur then "" else CS.invert
  let cs_inv_rst := if ref = cur then "" else CS.invert_rst
  let n := min ref.length cur.length
  csWalk cs_inv cs_inv_rst ref.data cur.data
    ++ (if n < cur.length then String.mk (cur.data.drop n) else "")
    ++ separator

/-- `clock_time::operator==` (FrameClock.h lines 111–118): field-wise
equality over `id, year, month, day, hour, minute` only — the four
reserved bytes are not compared. -/
def clock_time.beq (a b : clock_time) : Bool :=
  a.id == b.id && a.year == b.year && a.month == b.month &&
  a.day == b.day && a.hour == b.hour && a.minute == b.minute

/-- `clock_time::operator!=` (FrameClock.h line 119): negation of `==`. -/
def clock_time.bne (a b : clock_time) : Bool := !(clock_time.beq a b)

/-- The declared frame data length of `Schema.h`.
Modelled from the spec: `Schema.h` is not in `src/`.  The value is fixed
by the static assertion in FrameClock.h line 123,
`sizeof(clock_time_t) == frame_data_length - 2`, together with
`sizeof(clock_time_t) = 10`, forcing `frame_data_length = 12`. -/
def frame_data_length : Nat := 12

/-- The frame total length that §6 of the spec states for the Clock
frame ("Clock = 8 payload bytes for a 10-byte frame").
Modelled from the spec, kept separate from `frame_data_length` because
the two disagree (see the theorems on claim C3). -/
def spec_frame_total_length : Nat := 10

/-- The raw packet `hp_packetdata_t` of `Schema.h`.
Modelled from the spec: a fixed-capacity byte buffer (`data`, capacity
`frame_data_length` bytes) with an explicit length `data_len`.  The
capture timestamp and source tag of the surrounding frame are not
modelled (no claim depends on real time). -/
structure hp_packetdata_t where
  data : List Nat
  data_len : Nat
deriving DecidableEq, Repr

/-- A raw captured frame as consumed by `stage`: the part of `BaseFrame`
the Clock claims depend on, namely its packet. -/
structure BaseFrame where
  packet : hp_packetdata_t
deriving DecidableEq, Repr

/-- `BaseFrame::operator=(const unsigned char (&)[N])` (base_frame.h
lines 184–192): `data_len` is `N` when `N` fits the buffer and the
buffer capacity otherwise; `memcpy` then copies exactly `data_len`
source bytes, leaving the bytes beyond `data_len` as they were. -/
def BaseFrame.assign (b : BaseFrame) (src : List Nat) : BaseFrame :=
  let len := if src.length ≤ frame_data_length then src.length else frame_data_length
  { b with packet := { data := src.take len ++ b.packet.data.drop len, data_len := len } }

/-- `hp_packetdata_t::as_type<clock_time_t>()`.
Modelled from the spec: `Schema.h` is not in `src/`; §4.2 says the call
reinterprets the packed payload region as the exact-size struct, so the
ten bytes of the region become the ten fields of `clock_time` in
declaration order (missing bytes read as 0). -/
def clock_time.as_type (p : hp_packetdata_t) : clock_time :=
  ⟨p.data.getD 0 0, p.data.getD 1 0, p.data.getD 2 0, p.data.getD 3 0,
   p.data.getD 4 0, p.data.getD 5 0, p.data.getD 6 0, p.data.getD 7 0,
   p.data.getD 8 0, p.data.getD 9 0⟩

/-- The state of a `FrameClock` instance: the inherited packet plus the
two optional payload slots `data_` and `prev_data_` introduced by
`CLASS_DEFAULT_IMPL(FrameClock, clock_time_t)`. -/
structure FrameClockState where
  packet : hp_packetdata_t
  data_ : Option clock_time
  prev_data_ : Option clock_time
deriving DecidableEq, Repr

/-- `FrameClock()` (CLASS_DEFAULT_IMPL, base_frame.h line 75): empty
packet, both payload slots absent. -/
def freshClock : FrameClockState := ⟨⟨[], 0⟩, none, none⟩

/-- `stage` of CLASS_DEFAULT_IMPL (base_frame.h lines 94–98): first
`BaseFrame::stage(base)` copies the raw packet in (modelled from the
spec — `base_frame.cpp` is not in `src/`; §4.4 says "copies the raw
bytes in"), then `data_` is set to the payload decoded from the copied
packet.  `prev_data_` is not touched. -/
def FrameClockState.stage (s : FrameClockState) (base : BaseFrame) : FrameClockState :=
  { s with packet := base.packet,
           data_ := some (clock_time.as_type base.packet) }

/-- `transfer` of CLASS_DEFAULT_IMPL (base_frame.h lines 100–102):
`if (data_.has_value()) prev_data_ = data_;` — the copy happens only
when a current payload is present. -/
def FrameClockState.transfer (s : FrameClockState) : FrameClockState :=
  if s.data_.isSome then { s with prev_data_ := s.data_ } else s

/-- `is_changed` of CLASS_DEFAULT_IMPL (base_frame.h lines 107–109):
`!prev_data_.has_value() || !data_.has_value() || (*data_ != prev_data_.value())`. -/
def FrameClockState.is_changed (s : FrameClockState) : Bool :=
  match s.data_, s.prev_data_ with
  | some c, some p => clock_time.bne c p
  | _, _ => true

/-- `FrameClock::format(bool no_diff)` (FrameClock.cpp lines 61–67):
`"N/A"` when no current payload exists; otherwise the current payload
diffed against itself when `no_diff` is set or no previous payload
exists, and against the previous payload otherwise
(`FrameClock::format(val, ref)` is `val.diff(ref)` with the default
empty separator, FrameClock.cpp lines 69–71). -/
def FrameClockState.format (s : FrameClockState) (no_diff : Bool) : String :=
  match s.data_ with
  | none => "N/A"
  | some cur =>
      let ref := if no_diff then cur else s.prev_data_.getD cur
      clock_time.diff cur ref ""

/-- The broken-down-time argument of `std::mktime` as filled by
`clock_time::decode` (FrameClock.h lines 64–73). -/
structure tm where
  tm_year : Int
  tm_mon : Int
  tm_mday : Int
  tm_hour : Int
  tm_min : Int
  tm_sec : Int
deriving DecidableEq, Repr

/-- Days from civil date (proleptic Gregorian), the standard
civil-from-days conversion used to model libc time arithmetic; the
dividends are non-negative for every input reachable from a byte-valued
payload, so C truncating division and floor division agree and `Int.div`
mirrors the C semantics. -/
def days_from_civil (y m d : Int) : Int :=
  let y2 := if m ≤ 2 then y - 1 else y
  let era := (if 0 ≤ y2 then y2 else y2 - 399).tdiv 400
  let yoe := y2 - era * 400
  let doy := (153 * (if 2 < m then m - 3 else m + 9) + 2).tdiv 5 + d - 1
  let doe := yoe * 365 + yoe.tdiv 4 - yoe.tdiv 100 + doy
  era * 146097 + doe - 719468

/-- Model of `std::mktime`.
Modelled from the C library (not repository code): the broken-down time
is normalised (months beyond 11 roll into years) and converted to
seconds since the Unix epoch with `tm_year` interpreted as years since
1900 and `tm_mon` as a 0-based month, as the C standard prescribes; the
local-timezone offset is taken as zero (UTC). -/
def mktime (t : tm) : Int :=
  let y := 1900 + t.tm_year + t.tm_mon.tdiv 12
  let m := t.tm_mon.tmod 12 + 1
  86400 * days_from_civil y m t.tm_mday
    + 3600 * t.tm_hour + 60 * t.tm_min + t.tm_sec

/-- `clock_time::decode` (FrameClock.h lines 64–73): fills a `tm` with
the raw byte counters unchanged (`tm_year = year`, not `year - 1900`;
`tm_mon = month`, `tm_mday = day`, `tm_hour = hour`, `tm_min = minute`,
`tm_sec = 0`) and hands it to `mktime`. -/
def clock_time.decode (c : clock_time) : Int :=
  mktime ⟨(c.year : Int), (c.month : Int), (c.day : Int),
          (c.hour : Int), (c.minute : Int), 0⟩

/-- The aggregate domain state `heat_pump_data_t` of `Schema.h`.
Modelled from the spec: an external sink structure; the Clock frame
writes only its `time` field, so one further field stands for the rest
of the structure to express "leaves the domain state unchanged". -/
structure heat_pump_data_t where
  time : Int
  other_fields : Nat
deriving DecidableEq, Repr

/-- `FrameClock::parse` (FrameClock.cpp lines 49–53): when a current
payload exists, `hp_data.time = data_.value().decode()`; otherwise
nothing is written. -/
def FrameClockState.parse (s : FrameClockState) (hp : heat_pump_data_t) : heat_pump_data_t :=
  match s.data_ with
  | some c => { hp with time := c.decode }
  | none => hp

/-- An outgoing command request `HWPCall`.
Modelled from the spec: `hwp_call.h` is not in `src/`; §3 describes it
as an external value carrying a desired state change.  Its contents are
irrelevant to the Clock frame, which ignores the call. -/
structure HWPCall where
  requested_value : Nat
deriving DecidableEq, Repr

/-- `FrameClock::control` (FrameClock.cpp lines 73–75): returns
`esphome::nullopt` unconditionally; the method body reads and writes no
member, so the state passes through unchanged. -/
def FrameClockState.control (s : FrameClockState) (_call : HWPCall) :
    Option BaseFrame × FrameClockState :=
  (none, s)

/-- The diff walk as §4.5 of the spec words it: walk character by
character, emit a differing character wrapped in the highlight marker
pair, emit a matching character unmarked.  (Spec-side description, to
be compared against the source-derived `clock_time.diff`.) -/
def spec_mark_walk : List Char → List Char → String
  | c :: ct, r :: rt =>
      (if c = r then String.singleton c
       else CS.invert ++ String.singleton c ++ CS.invert_rst)
        ++ spec_mark_walk ct rt
  | _, _ => ""

/-- The behaviour claim C4 attributes to the diff algorithm, in the
spec's words: after the walk over the common prefix, append the
remainder of the longer string unmarked — whichever of the current or
the reference string is the longer one. -/
def spec_diff_append_longer (cur ref : String) : String :=
  spec_mark_walk cur.data ref.data ++
    (if ref.length ≤ cur.length then String.mk (cur.data.drop ref.length)
     else String.mk (ref.data.drop cur.length))

/-- Concrete Clock payload used in examples: 0xCF frame, counters
year 24, month 1, day 2, hour 3, minute 4. -/
def c24ex : clock_time := ⟨0xCF, 0, 0, 24, 1, 2, 3, 4, 0, 0⟩

/-- `c24ex` with the minute counter advanced to 5. -/
def p24ex : clock_time := { c24ex with minute := 5 }

/-- A Clock payload whose month counter is 100, so that its formatted
text is one character longer than that of an all-zero payload. -/
def cWide : clock_time := ⟨0, 0, 0, 0, 100, 0, 0, 0, 0, 0⟩

/-- The all-zero Clock payload. -/
def cZero : clock_time := ⟨0, 0, 0, 0, 0, 0, 0, 0, 0, 0⟩

/-- A Clock state with no current payload but a stale previous payload,
as left behind by a cycle that staged, transferred and then lost its
current value. -/
def staleClock : FrameClockState := ⟨⟨[], 0⟩, none, some c24ex⟩

section lemmas

/-- Appending the empty string is the identity. -/
theorem string_append_empty (s : String) : s ++ "" = s := by
  cases s with
  | mk l => show String.mk (l ++ []) = String.mk l; rw [List.append_nil]

/-- Rebuilding a string from its character list gives the string back. -/
theorem string_mk_data (s : String) : String.mk s.data = s := rfl

/-- String concatenation concatenates the character lists. -/
theorem string_mk_append (a b : List Char) :
    String.mk a ++ String.mk b = String.mk (a ++ b) := rfl

/-- On two equal character lists the walk marks nothing, whatever the
markers are: it reproduces the list. -/
theorem csWalk_self (inv rst : String) (l : List Char) :
    csWalk inv rst l l = String.mk l := by
  induction l with
  | nil => rfl
  | cons c t ih => simp [csWalk, ih, String.singleton]; rfl

/-- The spec-side walk coincides with the source walk instantiated at
the real highlight markers (the source walks `ref` against `cur` and
emits the current character; the spec description walks `cur` against
`ref`). -/
theorem spec_mark_walk_eq_csWalk (lc lr : List Char) :
    spec_mark_walk lc lr = csWalk CS.invert CS.invert_rst lr lc := by
  induction lc generalizing lr with
  | nil => cases lr <;> rfl
  | cons c ct ih =>
    cases lr with
    | nil => rfl
    | cons r rt =>
      simp only [spec_mark_walk, csWalk, ih]
      by_cases h : c = r
      · simp [h]
      · rw [if_neg h, if_neg (fun hh => h hh.symm)]

/-- The spec-side walk on two equal lists reproduces the list. -/
theorem spec_mark_walk_self (l : List Char) : spec_mark_walk l l = String.mk l := by
  rw [spec_mark_walk_eq_csWalk, csWalk_self]

/-- The `cur.substr(n)` tail of the source diff, guard included, equals
dropping the reference's length from the current character list: when
the reference is at least as long as the current string both sides are
empty, and otherwise both are `cur` beyond the common prefix. -/
theorem diff_tail_eq (lr lc : List Char) :
    (if min lr.length lc.length < lc.length
     then String.mk (lc.drop (min lr.length lc.length)) else "") =
      String.mk (lc.drop lr.length) := by
  rcases Nat.lt_or_ge lr.length lc.length with h | h
  · rw [Nat.min_eq_left (Nat.le_of_lt h), if_pos h]
  · rw [Nat.min_eq_right h, if_neg (lt_irrefl _), List.drop_eq_nil_of_le h]

/-- The source diff, separator left empty, is exactly: the spec-side
marked walk over the common prefix of the two formatted values,
followed by the unmarked remainder of the *current* formatted value
(and nothing of the reference's remainder). -/
theorem diff_eq_spec (c r : clock_time) :
    clock_time.diff c r "" =
      spec_mark_walk (c.format).data (r.format).data ++
        String.mk ((c.format).data.drop (r.format).length) := by
  simp only [clock_time.diff, String.length]
  by_cases h : r.format = c.format
  · rw [if_pos h, if_pos h, h, csWalk_self, spec_mark_walk_self,
      Nat.min_self, if_neg (lt_irrefl _), List.drop_length]
    rw [string_append_empty, string_append_empty]
  · rw [if_neg h, if_neg h, spec_mark_walk_eq_csWalk, diff_tail_eq, string_append_empty]

/-- Diffing a value against itself renders the plain formatted value:
no position differs, so no marker is emitted and nothing is appended. -/
theorem diff_self (c : clock_time) : clock_time.diff c c "" = c.format := by
  rw [diff_eq_spec, spec_mark_walk_self, String.length, List.drop_length]
  rw [string_mk_append, List.append_nil, string_mk_data]

end lemmas

/-- C1: `is_changed()` is true when no previous payload exists or no
current payload exists, and otherwise is `current != previous` under
the field-wise equality of `clock_time::operator==`, which compares
`id, year, month, day, hour, minute` and excludes the reserved bytes;
a fresh variant reports `is_changed() = true`; after `stage`, `transfer`
and `stage` of the same raw frame it reports `false`; after staging a
frame whose decoded payload differs it reports exactly the payload
inequality. -/
theorem claim_c1_is_changed :
    (∀ (pk : hp_packetdata_t) (d : Option clock_time),
        FrameClockState.is_changed ⟨pk, d, none⟩ = true) ∧
    (∀ (pk : hp_packetdata_t) (p : Option clock_time),
        FrameClockState.is_changed ⟨pk, none, p⟩ = true) ∧
    (∀ (pk : hp_packetdata_t) (c p : clock_time),
        FrameClockState.is_changed ⟨pk, some c, some p⟩ = clock_time.bne c p) ∧
    (∀ c p : clock_time, clock_time.beq c p = true ↔
        (c.id = p.id ∧ c.year = p.year ∧ c.month = p.month ∧
         c.day = p.day ∧ c.hour = p.hour ∧ c.minute = p.minute)) ∧
    FrameClockState.is_changed freshClock = true ∧
    (∀ b : BaseFrame,
        FrameClockState.is_changed (((freshClock.stage b).transfer).stage b) = false) ∧
    (∀ b b2 : BaseFrame,
        FrameClockState.is_changed (((freshClock.stage b).transfer).stage b2) =
          clock_time.bne (clock_time.as_type b2.packet) (clock_time.as_type b.packet)) := by
  refine ⟨?_, ?_, ?_, ?_, ?_, ?_, ?_⟩
  · intro pk d; cases d <;> rfl
  · intro pk p; cases p <;> rfl
  · intro pk c p; rfl
  · intro c p
    simp [clock_time.beq, Bool.and_eq_true, and_assoc]
  · rfl
  · intro b
    simp [FrameClockState.stage, FrameClockState.transfer, FrameClockState.is_changed,
      clock_time.bne, clock_time.beq]
  · intro b b2
    simp [FrameClockState.stage, FrameClockState.transfer, FrameClockState.is_changed]

/-- C2: `parse` with a current payload present writes into the domain
state the time obtained by handing the raw year/month/day/hour/minute
counters unchanged to the (modelled) `mktime`, touching nothing else;
with no current payload it returns the domain state unchanged. -/
theorem claim_c2_parse :
    (∀ (pk : hp_packetdata_t) (pr : Option clock_time) (c : clock_time)
        (hp : heat_pump_data_t),
        FrameClockState.parse ⟨pk, some c, pr⟩ hp = { hp with time := c.decode }) ∧
    (∀ (pk : hp_packetdata_t) (pr : Option clock_time) (hp : heat_pump_data_t),
        FrameClockState.parse ⟨pk, none, pr⟩ hp = hp) ∧
    (∀ c : clock_time, c.decode =
        mktime ⟨(c.year : Int), (c.month : Int), (c.day : Int),
                (c.hour : Int), (c.minute : Int), 0⟩) :=
  ⟨fun _ _ _ _ => rfl, fun _ _ _ => rfl, fun _ => rfl⟩

/-- C3 (counterexample): the packed Clock payload struct occupies 10
bytes, not the 8 bytes the claim computes from a 10-byte frame layout
minus header and checksum; `10 = 10 - 2` is false. -/
theorem claim_c3_counterexample :
    (clock_time.encode c24ex).length = 10 ∧
    spec_frame_total_length - 2 = 8 ∧
    ((clock_time.encode c24ex).length = spec_frame_total_length - 2) = False :=
  ⟨rfl, rfl, eq_false (by decide)⟩

/-- C3 (amended): the Clock payload struct is 10 bytes, and the
statically asserted equality `sizeof(clock_time_t) == frame_data_length
- 2` holds precisely when the declared frame data length is 12 — not
8 payload bytes of a 10-byte frame. -/
theorem claim_c3_sizeof :
    ∀ c : clock_time,
      (clock_time.encode c).length = frame_data_length - 2 ∧
      (∀ n : Nat, ((clock_time.encode c).length = n - 2) ↔ n = 12) := by
  intro c
  refine ⟨rfl, ?_⟩
  intro n
  show (10 : Nat) = n - 2 ↔ n = 12
  omega

/-- C4 (counterexample): with a current value formatting to a shorter
string than the reference (month counter 0 against month counter 100),
the source diff does not append the remainder of the longer (reference)
string: its output differs from the spec-described
walk-then-append-the-longer-remainder result. -/
theorem claim_c4_counterexample :
    (clock_time.diff cZero cWide "" =
        spec_diff_append_longer (cZero.format) (cWide.format)) = False :=
  eq_false (by decide)

/-- C4 (amended): after the character walk over the common prefix the
diff appends the unmarked remainder of the *current* string only; when
the reference string is the longer one its remainder is discarded
(dropping past the reference's length from the current string yields
exactly the current string's remainder, or nothing). -/
theorem claim_c4_append_current_only :
    ∀ c r : clock_time,
      clock_time.diff c r "" =
        spec_mark_walk (c.format).data (r.format).data ++
          String.mk ((c.format).data.drop (r.format).length) :=
  diff_eq_spec

/-- C5: with a current payload present, `format(true)` — and
`format(false)` with no previous payload — renders the plain formatted
current value; `format(false)` with a previous payload renders the
marked walk of the current against the previous formatted value
(each differing character wrapped in the marker pair, matching ones
unmarked, then the current value's remainder); concretely, current
`0024/01/02 - 03:04` against previous `0024/01/02 - 03:05` highlights
exactly the differing minute character. -/
theorem claim_c5_format :
    (∀ (pk : hp_packetdata_t) (c : clock_time) (pr : Option clock_time),
        FrameClockState.format ⟨pk, some c, pr⟩ true = c.format) ∧
    (∀ (pk : hp_packetdata_t) (c : clock_time),
        FrameClockState.format ⟨pk, some c, none⟩ false = c.format) ∧
    (∀ (pk : hp_packetdata_t) (c p : clock_time),
        FrameClockState.format ⟨pk, some c, some p⟩ false =
          spec_mark_walk (c.format).data (p.format).data ++
            String.mk ((c.format).data.drop (p.format).length)) ∧
    FrameClockState.format ⟨⟨[], 0⟩, some c24ex, some p24ex⟩ false =
      "0024/01/02 - 03:0" ++ CS.invert ++ "4" ++ CS.invert_rst ∧
    FrameClockState.format ⟨⟨[], 0⟩, some c24ex, some p24ex⟩ true =
      "0024/01/02 - 03:04" := by
  refine ⟨?_, ?_, ?_, by decide, by decide⟩
  · intro pk c pr
    simp only [FrameClockState.format, if_pos]
    exact diff_self c
  · intro pk c
    simp only [FrameClockState.format, Bool.false_eq_true, if_neg, Option.getD_none]
    exact diff_self c
  · intro pk c p
    simp only [FrameClockState.format, Bool.false_eq_true, if_neg, Option.getD_some]
    exact diff_eq_spec c p

/-- C6 (counterexample): on a state whose current payload is absent but
whose previous payload is present, `transfer()` leaves the previous
payload as it was, so after the call `previous` is not the value that
was current immediately before the call. -/
theorem claim_c6_counterexample :
    staleClock.transfer.prev_data_ = some c24ex ∧
    staleClock.data_ = none ∧
    (staleClock.transfer.prev_data_ = staleClock.data_) = False :=
  ⟨rfl, rfl, eq_false (by decide)⟩

/-- C6 (amended): `transfer()` advances `previous ← current` only when
a current payload is present; when the current payload is absent the
state — the previous payload included — is left unchanged. -/
theorem claim_c6_transfer :
    ∀ s : FrameClockState,
      s.transfer.data_ = s.data_ ∧
      s.transfer.packet = s.packet ∧
      s.transfer.prev_data_ = (if s.data_.isSome then s.data_ else s.prev_data_) := by
  intro s
  by_cases h : s.data_.isSome <;> simp [FrameClockState.transfer, h]

/-- C7: `stage(rawFrame)` copies the raw packet in, sets the current
payload to the payload decoded from the copied bytes, and leaves the
previous payload unchanged. -/
theorem claim_c7_stage :
    ∀ (s : FrameClockState) (b : BaseFrame),
      (s.stage b).packet = b.packet ∧
      (s.stage b).data_ = some (clock_time.as_type b.packet) ∧
      (s.stage b).prev_data_ = s.prev_data_ :=
  fun _ _ => ⟨rfl, rfl, rfl⟩

/-- C8: assigning a source byte array to a frame stores length
`min (source size) capacity` — never exceeding the buffer capacity —
and copies exactly that many leading source bytes (silent truncation
when the source is larger, the full source when it fits). -/
theorem claim_c8_assign :
    ∀ (b : BaseFrame) (src : List Nat),
      (b.assign src).packet.data_len = min src.length frame_data_length ∧
      (b.assign src).packet.data_len ≤ frame_data_length ∧
      (b.assign src).packet.data.take (min src.length frame_data_length) =
        src.take (min src.length frame_data_length) := by
  intro b src
  have hmin : (b.assign src).packet.data_len = min src.length frame_data_length := by
    simp [BaseFrame.assign, Nat.min_def]
  refine ⟨hmin, hmin ▸ Nat.min_le_right _ _, ?_⟩
  show ((src.take _ ++ _)).take _ = _
  rw [show (if src.length ≤ frame_data_length then src.length else frame_data_length)
        = min src.length frame_data_length from (Nat.min_def).symm]
  have hle : min src.length frame_data_length ≤
      (src.take (min src.length frame_data_length)).length := by
    rw [List.length_take]; omega
  rw [List.take_append_of_le_length hle, List.take_take, Nat.min_self]

/-- C9: for the read-only Clock frame type, `control(commandRequest)`
returns the absent result for every request and passes the frame state
through unmutated. -/
theorem claim_c9_control :
    ∀ (s : FrameClockState) (req : HWPCall),
      (s.control req).1 = none ∧ (s.control req).2 = s :=
  fun _ _ => ⟨rfl, rfl⟩

/-- C10: with no current payload ever decoded, `format` returns the
literal sentinel `"N/A"` for both values of the `noDiff` flag. -/
theorem claim_c10_format_na :
    ∀ (pk : hp_packetdata_t) (pr : Option clock_time) (b : Bool),
      FrameClockState.format ⟨pk, none, pr⟩ b = "N/A" :=
  fun _ _ _ => rfl

end hwp
